import Mathlib

/-!
Shallow embedding of the PhysicsSimulation particle simulator: the Vector3
math primitive (vector.h), the Particle state container (particle.cpp),
the Spring force element (spring.cpp), the distance Constraint
(constraint.cpp), the Euler and Verlet integrators (euler.cpp, verlet.cpp),
the gravity and medium force generators (gravity.cpp, medium.cpp) and the
Simulation orchestrator (simulation.cpp).  Machine float arithmetic is
idealised as exact real arithmetic; float literals such as 1e-6f become the
corresponding rationals.  Particle pointers become list indices (a pointer's
identity is its index), and in-place mutation becomes explicit state passing.
-/

noncomputable section

namespace PhysicsSimulation

/-- The float literal 1e-6f, the coincidence tolerance used by Spring,
Constraint and the computed-rest-length clamp. -/
def eps6 : ℝ := 1 / 1000000

/-- The float literal 1e-9f, used to guard tiny masses (simulation.cpp),
tiny squared distances (collision) and tiny Verlet time steps. -/
def eps9 : ℝ := 1 / 1000000000

/-- Vector3 from vector.h: a 3D vector of (idealised) floats. -/
structure Vector3 where
  x : ℝ
  y : ℝ
  z : ℝ

/-- Componentwise vector addition (vector.h operator+). -/
instance : Add Vector3 := ⟨fun a b => ⟨a.x + b.x, a.y + b.y, a.z + b.z⟩⟩

/-- Componentwise vector subtraction (vector.h operator-). -/
instance : Sub Vector3 := ⟨fun a b => ⟨a.x - b.x, a.y - b.y, a.z - b.z⟩⟩

/-- Vector negation (vector.h unary operator-). -/
instance : Neg Vector3 := ⟨fun a => ⟨-a.x, -a.y, -a.z⟩⟩

/-- Vector times scalar (vector.h operator* (vector, scalar)). -/
def Vector3.smul (v : Vector3) (s : ℝ) : Vector3 := ⟨v.x * s, v.y * s, v.z * s⟩

instance : HMul Vector3 ℝ Vector3 := ⟨Vector3.smul⟩

/-- Vector divided by scalar: the source computes 1/scalar and multiplies. -/
def Vector3.sdiv (v : Vector3) (s : ℝ) : Vector3 := v.smul (1 / s)

instance : HDiv Vector3 ℝ Vector3 := ⟨Vector3.sdiv⟩

/-- The zero vector, Vector3() default constructed. -/
def Vector3.zero : Vector3 := ⟨0, 0, 0⟩

/-- Dot product (vector.h Dot). -/
def Dot (a b : Vector3) : ℝ := a.x * b.x + a.y * b.y + a.z * b.z

/-- Squared length (vector.h SqrLength). -/
def Vector3.SqrLength (v : Vector3) : ℝ := v.x * v.x + v.y * v.y + v.z * v.z

/-- Length (vector.h Length): sqrt of x*x + y*y + z*z. -/
def Vector3.Length (v : Vector3) : ℝ := Real.sqrt v.SqrLength

@[simp] lemma Vector3.add_x (a b : Vector3) : (a + b).x = a.x + b.x := rfl
@[simp] lemma Vector3.add_y (a b : Vector3) : (a + b).y = a.y + b.y := rfl
@[simp] lemma Vector3.add_z (a b : Vector3) : (a + b).z = a.z + b.z := rfl
@[simp] lemma Vector3.sub_x (a b : Vector3) : (a - b).x = a.x - b.x := rfl
@[simp] lemma Vector3.sub_y (a b : Vector3) : (a - b).y = a.y - b.y := rfl
@[simp] lemma Vector3.sub_z (a b : Vector3) : (a - b).z = a.z - b.z := rfl
@[simp] lemma Vector3.neg_x (a : Vector3) : (-a).x = -a.x := rfl
@[simp] lemma Vector3.neg_y (a : Vector3) : (-a).y = -a.y := rfl
@[simp] lemma Vector3.neg_z (a : Vector3) : (-a).z = -a.z := rfl
@[simp] lemma Vector3.smul_x (v : Vector3) (s : ℝ) : (v * s).x = v.x * s := rfl
@[simp] lemma Vector3.smul_y (v : Vector3) (s : ℝ) : (v * s).y = v.y * s := rfl
@[simp] lemma Vector3.smul_z (v : Vector3) (s : ℝ) : (v * s).z = v.z * s := rfl
@[simp] lemma Vector3.sdiv_x (v : Vector3) (s : ℝ) : (v / s).x = v.x * (1 / s) := rfl
@[simp] lemma Vector3.sdiv_y (v : Vector3) (s : ℝ) : (v / s).y = v.y * (1 / s) := rfl
@[simp] lemma Vector3.sdiv_z (v : Vector3) (s : ℝ) : (v / s).z = v.z * (1 / s) := rfl
@[simp] lemma Vector3.zero_x : Vector3.zero.x = 0 := rfl
@[simp] lemma Vector3.zero_y : Vector3.zero.y = 0 := rfl
@[simp] lemma Vector3.zero_z : Vector3.zero.z = 0 := rfl

lemma Vector3.eq_components (a b : Vector3) : a = b ↔ a.x = b.x ∧ a.y = b.y ∧ a.z = b.z := by
  constructor
  · rintro rfl; exact ⟨rfl, rfl, rfl⟩
  · rintro ⟨hx, hy, hz⟩; cases a; cases b; simp_all

lemma Vector3.sqrLength_nonneg (v : Vector3) : 0 ≤ v.SqrLength := by
  unfold Vector3.SqrLength
  nlinarith [mul_self_nonneg v.x, mul_self_nonneg v.y, mul_self_nonneg v.z]

lemma Vector3.length_nonneg (v : Vector3) : 0 ≤ v.Length :=
  Real.sqrt_nonneg _

/-- Length of a vector lying on the x axis. -/
lemma Vector3.length_x_axis (L : ℝ) (h : 0 ≤ L) :
    (Vector3.mk L 0 0).Length = L := by
  unfold Vector3.Length Vector3.SqrLength
  simp only
  rw [show L * L + 0 * 0 + 0 * 0 = L * L by ring, Real.sqrt_mul_self h]

/-- Length scales by the absolute value of the scalar. -/
lemma Vector3.length_smul (v : Vector3) (s : ℝ) :
    (v * s).Length = |s| * v.Length := by
  show (v.smul s).Length = |s| * v.Length
  unfold Vector3.Length Vector3.SqrLength Vector3.smul
  simp only
  rw [show v.x * s * (v.x * s) + v.y * s * (v.y * s) + v.z * s * (v.z * s)
        = s ^ 2 * (v.x * v.x + v.y * v.y + v.z * v.z) by ring,
    Real.sqrt_mul (sq_nonneg s), Real.sqrt_sq_eq_abs]

/-- The particle type flag (particle.h Particle::Type). -/
inductive ParticleType where
  | kActive : ParticleType
  | kFixed : ParticleType
deriving DecidableEq

/-- Particle from particle.h/particle.cpp: a point mass with accumulated
force.  The color field is carried for completeness. -/
structure Particle where
  mass : ℝ
  radius : ℝ
  position : Vector3
  velocity : Vector3
  previous_position : Vector3
  force_accumulator : Vector3
  color : Vector3
  ptype : ParticleType

/-- Particle::AddForce: accumulate a force unless the particle is fixed. -/
def Particle.AddForce (p : Particle) (force : Vector3) : Particle :=
  if p.ptype ≠ ParticleType.kFixed then
    { p with force_accumulator := p.force_accumulator + force }
  else p

/-- Particle::ClearForceAccumulator: reset the accumulator to zero. -/
def Particle.ClearForceAccumulator (p : Particle) : Particle :=
  { p with force_accumulator := Vector3.zero }

lemma Particle.eq_fields (p q : Particle) :
    p = q ↔ p.mass = q.mass ∧ p.radius = q.radius ∧ p.position = q.position ∧
      p.velocity = q.velocity ∧ p.previous_position = q.previous_position ∧
      p.force_accumulator = q.force_accumulator ∧ p.color = q.color ∧
      p.ptype = q.ptype := by
  constructor
  · rintro rfl; exact ⟨rfl, rfl, rfl, rfl, rfl, rfl, rfl, rfl⟩
  · rintro ⟨h1, h2, h3, h4, h5, h6, h7, h8⟩; cases p; cases q; simp_all

@[simp] lemma Particle.addForce_active (p : Particle) (f : Vector3)
    (h : p.ptype = ParticleType.kActive) :
    p.AddForce f = { p with force_accumulator := p.force_accumulator + f } := by
  unfold Particle.AddForce
  rw [if_pos]
  rw [h]
  intro hc
  exact ParticleType.noConfusion hc

@[simp] lemma Particle.addForce_fixed (p : Particle) (f : Vector3)
    (h : p.ptype = ParticleType.kFixed) :
    p.AddForce f = p := by
  unfold Particle.AddForce
  rw [if_neg]
  simp [h]

/-- Spring from spring.h: stiffness, damping, rest length, and the identities
(list indices standing for the pointers) of the two endpoint particles. -/
structure Spring where
  stiffness : ℝ
  damping : ℝ
  rest_length : ℝ
  a : Nat
  b : Nat

/-- Spring::ApplyForce from spring.cpp, acting on the values of the two
pointed-to particles.  The spring itself is returned unchanged (the method
writes no member of *this); the two particles are returned with the
Hookean-plus-damping force accumulated, or untouched in the coincident
case. -/
def Spring.ApplyForce (s : Spring) (pa pb : Particle) :
    Spring × Particle × Particle :=
  let direction := pa.position - pb.position
  let current_length := direction.Length
  if current_length < eps6 then (s, pa, pb)
  else
    let unit_direction := direction / current_length
    let relative_velocity := pa.velocity - pb.velocity
    let velocity_along_direction := Dot relative_velocity unit_direction
    let spring_magnitude := -s.stiffness * (current_length - s.rest_length)
    let damping_magnitude := -s.damping * velocity_along_direction
    let total_magnitude := spring_magnitude + damping_magnitude
    let total_force := unit_direction * total_magnitude
    (s, pa.AddForce total_force, pb.AddForce (-total_force))

/-- Constraint from constraint.h: a rigid-rod distance enforcer, holding the
target length and the identities (list indices standing for the pointers) of
the two endpoint particles. -/
structure Constraint where
  length : ℝ
  a : Nat
  b : Nat

/-- Constraint::SatisfyConstraint from constraint.cpp, acting on the values
of the two pointed-to particles: positional relaxation weighted by which
endpoints are fixed, skipped entirely in the coincident case. -/
def Constraint.SatisfyConstraint (c : Constraint) (pa pb : Particle) :
    Particle × Particle :=
  let delta := pb.position - pa.position
  let current_length := delta.Length
  if current_length < eps6 then (pa, pb)
  else
    let diff := current_length - c.length
    let correction_vector := delta * (diff / current_length)
    let fixed_a := pa.ptype = ParticleType.kFixed
    let fixed_b := pb.ptype = ParticleType.kFixed
    let w : ℝ × ℝ :=
      if ¬fixed_a ∧ ¬fixed_b then (0.5, 0.5)
      else if fixed_a ∧ ¬fixed_b then (0, 1)
      else if ¬fixed_a ∧ fixed_b then (1, 0)
      else (0, 0)
    let pa2 := if w.1 > 0 then
        { pa with position := pa.position + correction_vector * w.1 } else pa
    let pb2 := if w.2 > 0 then
        { pb with position := pb.position - correction_vector * w.2 } else pb
    (pa2, pb2)

/-- A non-null Particle pointer: its address (the identity compared by the
validators, concretely the index of the pointee in the simulation's particle
list) together with the pointee's value.  A nullable pointer is an Option of
this. -/
structure PParticle where
  addr : Nat
  val : Particle

/-- ValidateSpringParameters from spring.cpp (anonymous namespace): the
checks in source order, an invalid_argument throw modelled as an error
result.  The rest_length argument defaults to 0 in the source. -/
def ValidateSpringParameters (stiffness damping : ℝ)
    (p_a p_b : Option PParticle) (rest_length : ℝ) : Except String Unit :=
  match p_a, p_b with
  | none, _ => .error "Spring particle pointers cannot be null."
  | some _, none => .error "Spring particle pointers cannot be null."
  | some pa, some pb =>
    if pa.addr = pb.addr then .error "Spring particles must be different."
    else if stiffness ≤ 0 then .error "Spring stiffness must be positive."
    else if damping < 0 then .error "Spring damping cannot be negative."
    else if rest_length < 0 then .error "Spring rest length cannot be negative."
    else .ok ()

/-- The Spring constructor that computes the rest length from the initial
particle positions (spring.cpp), clamping a near-zero separation to exactly
zero.  Validation runs first with the default rest_length argument 0. -/
def Spring.mkComputed (stiffness damping : ℝ)
    (p_a p_b : Option PParticle) : Except String Spring :=
  match ValidateSpringParameters stiffness damping p_a p_b 0 with
  | .error e => .error e
  | .ok _ =>
    match p_a, p_b with
    | some pa, some pb =>
      let rl := (pa.val.position - pb.val.position).Length
      .ok { stiffness := stiffness, damping := damping,
            rest_length := if rl < eps6 then 0 else rl,
            a := pa.addr, b := pb.addr }
    | _, _ => .error "Spring particle pointers cannot be null."

/-- The Spring constructor that takes an explicit rest length (spring.cpp). -/
def Spring.mkExplicit (stiffness damping : ℝ)
    (p_a p_b : Option PParticle) (rest_length : ℝ) : Except String Spring :=
  match ValidateSpringParameters stiffness damping p_a p_b rest_length with
  | .error e => .error e
  | .ok _ =>
    match p_a, p_b with
    | some pa, some pb =>
      .ok { stiffness := stiffness, damping := damping,
            rest_length := rest_length, a := pa.addr, b := pb.addr }
    | _, _ => .error "Spring particle pointers cannot be null."

/-- The Constraint constructor (constraint.cpp): null check, identity check,
negative length check, each throw modelled as an error result. -/
def Constraint.make (length : ℝ) (p_a p_b : Option PParticle) :
    Except String Constraint :=
  match p_a, p_b with
  | none, _ => .error "Constraint particle pointers cannot be null."
  | some _, none => .error "Constraint particle pointers cannot be null."
  | some pa, some pb =>
    if pa.addr = pb.addr then .error "Constraint particles must be different."
    else if length < 0 then .error "Constraint length cannot be negative."
    else .ok { length := length, a := pa.addr, b := pb.addr }

/-- EulerIntegrator::Integrate from euler.cpp: explicit forward Euler,
a no-op when dt is not positive.  The position update reads the velocity
before the velocity update. -/
def EulerIntegrator.Integrate (acceleration : Vector3) (p : Particle)
    (dt : ℝ) : Particle :=
  if dt ≤ 0 then p
  else
    { p with position := p.position + p.velocity * dt,
             velocity := p.velocity + acceleration * dt }

/-- VerletIntegrator::Integrate from verlet.cpp: position-based Verlet with
a drag factor, a no-op when dt is at most 1e-9. -/
def VerletIntegrator.Integrate (drag : ℝ) (acceleration : Vector3)
    (p : Particle) (dt : ℝ) : Particle :=
  if dt ≤ eps9 then p
  else
    let temp_position := p.position
    let displacement := p.position - p.previous_position
    let scaled_acceleration := acceleration * (dt * dt)
    { p with
        position := p.position + displacement * (1 - drag) + scaled_acceleration,
        previous_position := temp_position }

/-- The closed set of force generators the repository implements:
GravityForceGenerator (gravity.cpp) and Medium linear drag (medium.cpp). -/
inductive ForceGenerator where
  | gravity (acceleration : Vector3) : ForceGenerator
  | medium (drag_coefficient : ℝ) : ForceGenerator

/-- ForceGenerator::ApplyForce.  Gravity returns early on non-positive mass
and otherwise accumulates acceleration * mass; Medium accumulates
velocity * (-drag).  Particle::AddForce itself ignores fixed particles. -/
def ForceGenerator.ApplyForce : ForceGenerator → Particle → Particle
  | .gravity acceleration, p =>
      if p.mass ≤ 0 then p else p.AddForce (acceleration * p.mass)
  | .medium drag_coefficient, p =>
      p.AddForce (p.velocity * (-drag_coefficient))

/-- Plane from plane.h: a normal (assumed normalised) and a point on the
plane. -/
structure Plane where
  normal : Vector3
  position : Vector3

/-- The selected integrator (simulation.h holds one polymorphic
Integrator). -/
inductive IntegratorKind where
  | euler : IntegratorKind
  | verlet (drag : ℝ) : IntegratorKind

/-- Dispatch Integrate through the integrator interface. -/
def IntegratorKind.Integrate : IntegratorKind → Vector3 → Particle → ℝ → Particle
  | .euler, acceleration, p, dt => EulerIntegrator.Integrate acceleration p dt
  | .verlet drag, acceleration, p, dt =>
      VerletIntegrator.Integrate drag acceleration p dt

/-- The body of the particle-particle loop of Simulation::HandleCollisions
(simulation.cpp), acting on the values of the two particles: detection,
positional correction weighted by fixedness, then the restitution impulse
for approaching pairs, split by the same fixedness weighting. -/
def ResolveParticleParticle (diss : ℝ) (p1 p2 : Particle) :
    Particle × Particle :=
  let delta_pos := p1.position - p2.position
  let dist_sq := delta_pos.SqrLength
  let combined_radius := p1.radius + p2.radius
  if dist_sq < combined_radius * combined_radius ∧ dist_sq > eps9 then
    let dist := Real.sqrt dist_sq
    let normal := delta_pos / dist
    let penetration_depth := combined_radius - dist
    let fixed1 := p1.ptype = ParticleType.kFixed
    let fixed2 := p2.ptype = ParticleType.kFixed
    let w : ℝ × ℝ :=
      if ¬fixed1 ∧ ¬fixed2 then (0.5, 0.5)
      else if fixed1 ∧ ¬fixed2 then (0, 1)
      else if ¬fixed1 ∧ fixed2 then (1, 0)
      else (0, 0)
    let p1a := if w.1 > 0 then
        { p1 with position := p1.position + normal * (penetration_depth * w.1) }
      else p1
    let p2a := if w.2 > 0 then
        { p2 with position := p2.position - normal * (penetration_depth * w.2) }
      else p2
    let relative_velocity := p1a.velocity - p2a.velocity
    let velocity_along_normal := Dot relative_velocity normal
    if velocity_along_normal < 0 then
      let restitution := diss
      let impulse_magnitude := -(1 + restitution) * velocity_along_normal
      if ¬fixed1 ∧ ¬fixed2 then
        let impulse := normal * (impulse_magnitude * 0.5)
        ({ p1a with velocity := p1a.velocity + impulse },
         { p2a with velocity := p2a.velocity - impulse })
      else if ¬fixed1 ∧ fixed2 then
        let impulse := normal * impulse_magnitude
        ({ p1a with velocity := p1a.velocity + impulse }, p2a)
      else if fixed1 ∧ ¬fixed2 then
        let impulse := normal * impulse_magnitude
        (p1a, { p2a with velocity := p2a.velocity - impulse })
      else (p1a, p2a)
    else (p1a, p2a)
  else (p1, p2)

/-- One inner-loop iteration of the particle-particle pass, at indices i and
j of the particle list. -/
def collidePairAt (diss : ℝ) (ps : List Particle) (i j : Nat) :
    List Particle :=
  match ps[i]?, ps[j]? with
  | some p1, some p2 =>
    let r := ResolveParticleParticle diss p1 p2
    (ps.set i r.1).set j r.2
  | _, _ => ps

/-- The particle-particle double loop of Simulation::HandleCollisions: all
ordered pairs i < j, in source order. -/
def HandleParticleCollisions (diss : ℝ) (ps : List Particle) :
    List Particle :=
  (List.range ps.length).foldl
    (fun acc i =>
      ((List.range ps.length).drop (i + 1)).foldl
        (fun acc2 j => collidePairAt diss acc2 i j) acc)
    ps

/-- The body of the particle-plane loop of Simulation::HandleCollisions:
positional push-out along the normal, then the restitution impulse, both
skipped for fixed particles. -/
def ResolveParticlePlane (diss : ℝ) (plane : Plane) (p : Particle) :
    Particle :=
  let normal := plane.normal
  let dist_to_plane := Dot (p.position - plane.position) normal
  let penetration_depth := p.radius - dist_to_plane
  if penetration_depth > 0 then
    let p1 := if p.ptype ≠ ParticleType.kFixed then
        { p with position := p.position + normal * penetration_depth } else p
    let velocity_along_normal := Dot p1.velocity normal
    if velocity_along_normal < 0 then
      let restitution := diss
      let impulse := normal * (-(1 + restitution) * velocity_along_normal)
      if p1.ptype ≠ ParticleType.kFixed then
        { p1 with velocity := p1.velocity + impulse }
      else p1
    else p1
  else p

/-- The particle-plane loop of Simulation::HandleCollisions: every particle
against every plane, in source order. -/
def HandlePlaneCollisions (diss : ℝ) (planes : List Plane)
    (ps : List Particle) : List Particle :=
  ps.map (fun p => planes.foldl (fun q plane => ResolveParticlePlane diss plane q) p)

/-- Simulation from simulation.h: the flat particle processing list, the
owned springs, constraints, planes and force generators, the particle
generators (whose per-step update body is empty), the selected integrator
and the global dissipative coefficient. -/
structure Simulation where
  particles : List Particle
  springs : List Spring
  constraints : List Constraint
  planes : List Plane
  force_generators : List ForceGenerator
  particle_generators : List Unit
  integrator : IntegratorKind
  dissipative_coefficient : ℝ

/-- Simulation::ApplyForces: every force generator is applied to every
active particle. -/
def Simulation.ApplyForces (sim : Simulation) : Simulation :=
  { sim with particles := sim.particles.map (fun p =>
      if p.ptype = ParticleType.kActive then
        sim.force_generators.foldl (fun q g => g.ApplyForce q) p
      else p) }

/-- One spring's ApplyForce, routed through the particle list at the
spring's endpoint indices (the pointers of the source). -/
def applySpringAt (s : Spring) (ps : List Particle) : List Particle :=
  match ps[s.a]?, ps[s.b]? with
  | some pa, some pb =>
    let r := s.ApplyForce pa pb
    (ps.set s.a r.2.1).set s.b r.2.2
  | _, _ => ps

/-- Simulation::UpdateSprings: ApplyForce on every spring in order. -/
def Simulation.UpdateSprings (sim : Simulation) : Simulation :=
  { sim with particles := sim.springs.foldl (fun ps s => applySpringAt s ps) sim.particles }

/-- One constraint's SatisfyConstraint, routed through the particle list at
the constraint's endpoint indices. -/
def satisfyConstraintAt (c : Constraint) (ps : List Particle) : List Particle :=
  match ps[c.a]?, ps[c.b]? with
  | some pa, some pb =>
    let r := c.SatisfyConstraint pa pb
    (ps.set c.a r.1).set c.b r.2
  | _, _ => ps

/-- The fixed number of constraint relaxation passes of
Simulation::UpdateConstraints. -/
def constraint_iterations : Nat := 10

/-- Simulation::UpdateConstraints: constraint_iterations relaxation passes,
each pass satisfying every constraint once, in order. -/
def Simulation.UpdateConstraints (sim : Simulation) : Simulation :=
  let ps := (List.range constraint_iterations).foldl
    (fun ps _ => sim.constraints.foldl (fun qs c => satisfyConstraintAt c qs) ps)
    sim.particles
  { sim with particles := ps }

/-- Simulation::IntegrateParticles: every active particle is integrated with
acceleration = accumulated force / mass, zero for near-zero mass. -/
def Simulation.IntegrateParticles (sim : Simulation) (dt : ℝ) : Simulation :=
  { sim with particles := sim.particles.map (fun p =>
      if p.ptype = ParticleType.kActive then
        let mass := p.mass
        let acceleration : Vector3 :=
          if mass > eps9 then p.force_accumulator / mass else Vector3.zero
        sim.integrator.Integrate acceleration p dt
      else p) }

/-- Simulation::HandleCollisions: the particle-particle pass followed by the
particle-plane pass, both using the simulation's dissipative coefficient as
restitution. -/
def Simulation.HandleCollisions (sim : Simulation) : Simulation :=
  let ps := HandlePlaneCollisions sim.dissipative_coefficient sim.planes
    (HandleParticleCollisions sim.dissipative_coefficient sim.particles)
  { sim with particles := ps }

/-- Simulation::ClearParticleForces: clear every particle's accumulator. -/
def Simulation.ClearParticleForces (sim : Simulation) : Simulation :=
  { sim with particles := sim.particles.map Particle.ClearForceAccumulator }

/-- Simulation::UpdateParticles: the six phases in source order. -/
def Simulation.UpdateParticles (sim : Simulation) (dt : ℝ) : Simulation :=
  let s1 := sim.ApplyForces
  let s2 := s1.UpdateSprings
  let s3 := s2.IntegrateParticles dt
  let s4 := s3.UpdateConstraints
  let s5 := s4.HandleCollisions
  s5.ClearParticleForces

/-- Simulation::Update: the loop over particle generators (whose body is
empty in the source) followed by UpdateParticles. -/
def Simulation.Update (sim : Simulation) (dt : ℝ) : Simulation :=
  let s0 := sim.particle_generators.foldl (fun s _ => s) sim
  s0.UpdateParticles dt

/-- Simulation::AddSpring (simulation.cpp): silently ignores null or
identical pointers; constructs the spring inside a try block and catches and
discards the invalid_argument throw, so the function itself never
surfaces an error. -/
def Simulation.AddSpring (sim : Simulation) (stiffness damping : ℝ)
    (particle_a particle_b : Option PParticle) : Except String Simulation :=
  match particle_a, particle_b with
  | some pa, some pb =>
    if pa.addr ≠ pb.addr then
      match Spring.mkComputed stiffness damping particle_a particle_b with
      | .ok s => .ok { sim with springs := sim.springs ++ [s] }
      | .error _ => .ok sim
    else .ok sim
  | _, _ => .ok sim

/-- Simulation::AddConstraint (simulation.cpp): silently ignores null or
identical pointers; otherwise constructs the constraint with no try block,
so a constructor throw propagates to the caller. -/
def Simulation.AddConstraint (sim : Simulation) (length : ℝ)
    (particle_a particle_b : Option PParticle) : Except String Simulation :=
  match particle_a, particle_b with
  | some pa, some pb =>
    if pa.addr ≠ pb.addr then
      match Constraint.make length particle_a particle_b with
      | .ok c => .ok { sim with constraints := sim.constraints ++ [c] }
      | .error e => .error e
    else .ok sim
  | _, _ => .ok sim

/-! Helper lemmas. -/

lemma foldl_const_id {α β : Type} (l : List β) (a : α) :
    l.foldl (fun s _ => s) a = a := by
  induction l generalizing a with
  | nil => rfl
  | cons b t ih => exact ih a

lemma ite_pair_fst {c : Prop} [Decidable c] {α β : Type} (a b : α × β) :
    (if c then a else b).1 = if c then a.1 else b.1 := by
  split <;> rfl

lemma ite_pair_snd {c : Prop} [Decidable c] {α β : Type} (a b : α × β) :
    (if c then a else b).2 = if c then a.2 else b.2 := by
  split <;> rfl

lemma foldl_preserves {α β : Type} (P : α → Prop) (f : α → β → α)
    (hf : ∀ a b, P a → P (f a b)) :
    ∀ (l : List β) (a : α), P a → P (l.foldl f a) := by
  intro l
  induction l with
  | nil => intro a h; exact h
  | cons b t ih => intro a h; exact ih _ (hf a b h)

/-! Claim theorems. -/

/-- C1: one call to Simulation::Update(dt) performs exactly the phases
ApplyForces, UpdateSprings, IntegrateParticles, UpdateConstraints,
HandleCollisions, ClearParticleForces in this order and nothing else (the
loop over particle generators has an empty body). -/
theorem Simulation.update_pipeline_order (sim : Simulation) (dt : ℝ) :
    sim.Update dt =
      ((((sim.ApplyForces.UpdateSprings).IntegrateParticles dt).UpdateConstraints).HandleCollisions).ClearParticleForces := by
  unfold Simulation.Update Simulation.UpdateParticles
  rw [foldl_const_id]

/-- C10: Spring::ApplyForce mutates nothing except the two particles' force
accumulators: the spring comes back identical, and each particle comes back
equal to its old value with only the force accumulator replaced (in the
coincident case nothing at all changes). -/
theorem Spring.applyForce_frame (s : Spring) (pa pb : Particle) :
    (s.ApplyForce pa pb).1 = s ∧
    (s.ApplyForce pa pb).2.1 =
      { pa with force_accumulator := (s.ApplyForce pa pb).2.1.force_accumulator } ∧
    (s.ApplyForce pa pb).2.2 =
      { pb with force_accumulator := (s.ApplyForce pa pb).2.2.force_accumulator } := by
  by_cases h : (pa.position - pb.position).Length < eps6
  · simp [Spring.ApplyForce, if_pos h]
  · simp only [Spring.ApplyForce, if_neg h]
    refine ⟨trivial, ?_, ?_⟩ <;> (unfold Particle.AddForce; split <;> rfl)

/-- A concrete active particle moving along x used by counterexamples. -/
def pSmallDt : Particle :=
  { mass := 1, radius := 1 / 10, position := ⟨0, 0, 0⟩, velocity := ⟨1, 0, 0⟩,
    previous_position := ⟨0, 0, 0⟩, force_accumulator := ⟨0, 0, 0⟩,
    color := ⟨1, 1, 1⟩, ptype := ParticleType.kActive }

/-- C6 counterexample: dt = 1e-10 is positive and below the small epsilon
1e-9, yet EulerIntegrator::Integrate moves the particle: the Euler guard is
only dt <= 0. -/
theorem EulerIntegrator.small_dt_counterexample :
    (0 : ℝ) < 1 / 10000000000 ∧ (1 / 10000000000 : ℝ) < eps9 ∧
    (EulerIntegrator.Integrate Vector3.zero pSmallDt (1 / 10000000000)).position ≠
      pSmallDt.position := by
  refine ⟨by norm_num, by norm_num [eps9], ?_⟩
  unfold EulerIntegrator.Integrate
  rw [if_neg (by norm_num)]
  intro h
  have hx := congrArg Vector3.x h
  simp [pSmallDt] at hx

/-- C6 amended: Integrate with dt <= 0 leaves the particle unchanged for
both integrators, and the Verlet integrator is additionally a no-op for any
dt <= 1e-9; the Euler integrator has no positive-epsilon guard. -/
theorem Integrator.dt_guard_spec (acceleration : Vector3) (p : Particle)
    (dt drag : ℝ) :
    (dt ≤ 0 → EulerIntegrator.Integrate acceleration p dt = p ∧
      VerletIntegrator.Integrate drag acceleration p dt = p) ∧
    (dt ≤ eps9 → VerletIntegrator.Integrate drag acceleration p dt = p) := by
  constructor
  · intro h
    constructor
    · unfold EulerIntegrator.Integrate; rw [if_pos h]
    · unfold VerletIntegrator.Integrate
      rw [if_pos (le_trans h (by norm_num [eps9]))]
  · intro h
    unfold VerletIntegrator.Integrate; rw [if_pos h]

/-- C7: Spring construction reports an invalid-argument error exactly for a
null pointer, identical particles, non-positive stiffness, negative damping,
or a negative explicit rest length; a successful computed rest length is the
initial separation, clamped to exactly 0 when under 1e-6. -/
theorem Spring.construction_validation (stiffness damping rest_length : ℝ)
    (p_a p_b : Option PParticle) :
    ((∃ e, Spring.mkComputed stiffness damping p_a p_b = Except.error e) ↔
      (p_a = none ∨ p_b = none ∨
        (∃ pa pb, p_a = some pa ∧ p_b = some pb ∧ pa.addr = pb.addr) ∨
        stiffness ≤ 0 ∨ damping < 0)) ∧
    ((∃ e, Spring.mkExplicit stiffness damping p_a p_b rest_length = Except.error e) ↔
      (p_a = none ∨ p_b = none ∨
        (∃ pa pb, p_a = some pa ∧ p_b = some pb ∧ pa.addr = pb.addr) ∨
        stiffness ≤ 0 ∨ damping < 0 ∨ rest_length < 0)) ∧
    (∀ pa pb s, p_a = some pa → p_b = some pb →
      Spring.mkComputed stiffness damping p_a p_b = Except.ok s →
      s.rest_length =
        if (pa.val.position - pb.val.position).Length < eps6 then 0
        else (pa.val.position - pb.val.position).Length) := by
  refine ⟨?_, ?_, ?_⟩
  · rcases p_a with _ | pa <;> rcases p_b with _ | pb <;>
      simp only [Spring.mkComputed, ValidateSpringParameters] <;>
      try simp
    split_ifs with h1 h2 h3 <;> simp_all
  · rcases p_a with _ | pa <;> rcases p_b with _ | pb <;>
      simp only [Spring.mkExplicit, ValidateSpringParameters] <;>
      try simp
    split_ifs with h1 h2 h3 h4 <;> simp_all
  · intro pa pb s ha hb hok
    subst ha; subst hb
    simp only [Spring.mkComputed, ValidateSpringParameters] at hok
    split_ifs at hok with h1 h2 h3 h4 hclamp
    · dsimp only at hok
      rw [Except.ok.injEq] at hok
      rw [← hok, if_pos hclamp]
    · dsimp only at hok
      rw [Except.ok.injEq] at hok
      rw [← hok, if_neg hclamp]

/-- Particles at concrete positions used by witnesses and counterexamples. -/
def pActiveO : Particle :=
  { mass := 1, radius := 1 / 10, position := ⟨0, 0, 0⟩, velocity := ⟨0, 0, 0⟩,
    previous_position := ⟨0, 0, 0⟩, force_accumulator := ⟨0, 0, 0⟩,
    color := ⟨1, 1, 1⟩, ptype := ParticleType.kActive }

/-- An active particle at (2,0,0). -/
def pActiveX2 : Particle :=
  { pActiveO with position := ⟨2, 0, 0⟩, previous_position := ⟨2, 0, 0⟩ }

/-- A fixed particle at the origin. -/
def pFixedO : Particle := { pActiveO with ptype := ParticleType.kFixed }

/-- A fixed particle at (2,0,0). -/
def pFixedX2 : Particle := { pActiveX2 with ptype := ParticleType.kFixed }

/-- An empty simulation with the default Euler integrator and default
dissipative coefficient 0.5. -/
def simEmpty : Simulation :=
  { particles := [], springs := [], constraints := [], planes := [],
    force_generators := [], particle_generators := [],
    integrator := IntegratorKind.euler, dissipative_coefficient := 1 / 2 }

/-- C8 counterexample: AddSpring with an invalid stiffness (-1 <= 0) returns
normally with the simulation unchanged; the validation error is caught
inside AddSpring and never surfaces to the caller. -/
theorem Simulation.addSpring_swallows_error :
    ((-1 : ℝ) ≤ 0) ∧
    simEmpty.AddSpring (-1) 0 (some ⟨0, pActiveO⟩) (some ⟨1, pActiveX2⟩) =
      Except.ok simEmpty := by
  refine ⟨by norm_num, ?_⟩
  simp only [Simulation.AddSpring, Spring.mkComputed, ValidateSpringParameters]
  norm_num

/-- C8 amended: invalid registration inputs never add a spring or
constraint, but the only error that surfaces is AddConstraint's
negative-length throw; AddSpring silently ignores null or identical
pointers and catches and discards spring validation failures, and
AddConstraint silently ignores null or identical pointers. -/
theorem Simulation.registration_rejects_invalid (sim : Simulation)
    (stiffness damping length : ℝ) (p_a p_b : Option PParticle) :
    ((p_a = none ∨ p_b = none ∨
        (∃ pa pb, p_a = some pa ∧ p_b = some pb ∧ pa.addr = pb.addr) ∨
        stiffness ≤ 0 ∨ damping < 0) →
      sim.AddSpring stiffness damping p_a p_b = Except.ok sim) ∧
    ((p_a = none ∨ p_b = none ∨
        (∃ pa pb, p_a = some pa ∧ p_b = some pb ∧ pa.addr = pb.addr)) →
      sim.AddConstraint length p_a p_b = Except.ok sim) ∧
    (∀ pa pb, p_a = some pa → p_b = some pb → pa.addr ≠ pb.addr → length < 0 →
      sim.AddConstraint length p_a p_b =
        Except.error "Constraint length cannot be negative.") := by
  refine ⟨?_, ?_, ?_⟩
  · rcases p_a with _ | pa <;> rcases p_b with _ | pb <;>
      simp only [Simulation.AddSpring, Spring.mkComputed, ValidateSpringParameters] <;>
      try simp
    intro h
    split_ifs with h1 h2 h3 <;> simp_all
  · rcases p_a with _ | pa <;> rcases p_b with _ | pb <;>
      simp only [Simulation.AddConstraint, Constraint.make] <;> try simp
    intro h
    split_ifs <;> simp_all
  · intro pa pb ha hb hne hlen
    subst ha; subst hb
    simp only [Simulation.AddConstraint, Constraint.make]
    rw [if_pos hne, if_neg hne, if_pos hlen]

/-- Evaluation of Spring::ApplyForce in the non-coincident case. -/
lemma Spring.applyForce_eval (s : Spring) (pa pb : Particle)
    (h : ¬ (pa.position - pb.position).Length < eps6) :
    s.ApplyForce pa pb =
      (s,
       pa.AddForce (((pa.position - pb.position) / (pa.position - pb.position).Length) *
         (-s.stiffness * ((pa.position - pb.position).Length - s.rest_length) +
          -s.damping * Dot (pa.velocity - pb.velocity)
            ((pa.position - pb.position) / (pa.position - pb.position).Length))),
       pb.AddForce (-(((pa.position - pb.position) / (pa.position - pb.position).Length) *
         (-s.stiffness * ((pa.position - pb.position).Length - s.rest_length) +
          -s.damping * Dot (pa.velocity - pb.velocity)
            ((pa.position - pb.position) / (pa.position - pb.position).Length))))) := by
  simp only [Spring.ApplyForce, if_neg h]

/-- C3 amended: for a spring with zero damping whose two (movable) particles
lie on the x axis with particle_a on the positive side at separation
L > 1e-6 and zero relative velocity, ApplyForce adds exactly
(-k(L - L0), 0, 0) to particle_a's accumulator and its negation to
particle_b's.  The movability proviso is forced: AddForce discards the
contribution of a Fixed endpoint. -/
theorem Spring.hooke_x_axis (s : Spring) (pa pb : Particle) (L : ℝ)
    (ha : pa.ptype = ParticleType.kActive) (hb : pb.ptype = ParticleType.kActive)
    (hdamp : s.damping = 0) (hvel : pa.velocity = pb.velocity)
    (hx : pa.position - pb.position = ⟨L, 0, 0⟩) (hL : eps6 < L) :
    (s.ApplyForce pa pb).2.1.force_accumulator =
      pa.force_accumulator + ⟨-s.stiffness * (L - s.rest_length), 0, 0⟩ ∧
    (s.ApplyForce pa pb).2.2.force_accumulator =
      pb.force_accumulator + (-(⟨-s.stiffness * (L - s.rest_length), 0, 0⟩ : Vector3)) := by
  have hL0 : (0:ℝ) < L := lt_trans (by norm_num [eps6]) hL
  have hlen : (pa.position - pb.position).Length = L := by
    rw [hx]; exact Vector3.length_x_axis L hL0.le
  have hguard : ¬ (pa.position - pb.position).Length < eps6 := by
    rw [hlen]; exact not_lt.2 hL.le
  rw [Spring.applyForce_eval s pa pb hguard]
  have hdot : Dot (pa.velocity - pb.velocity)
      ((pa.position - pb.position) / (pa.position - pb.position).Length) = 0 := by
    rw [hvel]; simp [Dot]
  have hforce : ((pa.position - pb.position) / (pa.position - pb.position).Length) *
      (-s.stiffness * ((pa.position - pb.position).Length - s.rest_length) +
       -s.damping * Dot (pa.velocity - pb.velocity)
         ((pa.position - pb.position) / (pa.position - pb.position).Length)) =
      (⟨-s.stiffness * (L - s.rest_length), 0, 0⟩ : Vector3) := by
    rw [hdot, hlen, hx]
    rw [Vector3.eq_components]
    have hne : L ≠ 0 := ne_of_gt hL0
    refine ⟨?_, ?_, ?_⟩ <;> simp <;> field_simp
  rw [hforce]
  dsimp only
  rw [Particle.addForce_active _ _ ha, Particle.addForce_active _ _ hb]
  exact ⟨rfl, rfl⟩

/-- The spring used by the hooke and symmetry witnesses: stiffness 1,
damping 0, rest length 1. -/
def wSpring : Spring := { stiffness := 1, damping := 0, rest_length := 1, a := 0, b := 1 }

/-- The spring used by the fixed-particle counterexamples: stiffness 1,
damping 0, rest length 0. -/
def cexSpring : Spring := { stiffness := 1, damping := 0, rest_length := 0, a := 0, b := 1 }

/-- C3 witness: two active particles on the x axis at separation 2. -/
theorem Spring.hooke_x_axis_witness :
    (wSpring.ApplyForce pActiveX2 pActiveO).2.1.force_accumulator =
      pActiveX2.force_accumulator + ⟨-wSpring.stiffness * (2 - wSpring.rest_length), 0, 0⟩ ∧
    (wSpring.ApplyForce pActiveX2 pActiveO).2.2.force_accumulator =
      pActiveO.force_accumulator + (-(⟨-wSpring.stiffness * (2 - wSpring.rest_length), 0, 0⟩ : Vector3)) :=
  Spring.hooke_x_axis wSpring pActiveX2 pActiveO 2 rfl rfl rfl rfl
    (by simp [pActiveX2, pActiveO, Vector3.eq_components]) (by norm_num [eps6])

/-- C3 counterexample: the same configuration with particle_a Fixed meets
every stated hypothesis of the claim (zero damping, zero relative velocity,
x-axis separation 2 > 1e-6), yet particle_a's accumulator does not receive
(-k(L - L0), 0, 0): AddForce ignores fixed particles. -/
theorem Spring.hooke_fixed_counterexample :
    cexSpring.damping = 0 ∧ pFixedX2.velocity = pActiveO.velocity ∧
    pFixedX2.position - pActiveO.position = (⟨2, 0, 0⟩ : Vector3) ∧ eps6 < 2 ∧
    (cexSpring.ApplyForce pFixedX2 pActiveO).2.1.force_accumulator ≠
      pFixedX2.force_accumulator +
        ⟨-cexSpring.stiffness * (2 - cexSpring.rest_length), 0, 0⟩ := by
  have hx : pFixedX2.position - pActiveO.position = (⟨2, 0, 0⟩ : Vector3) := by
    simp [pFixedX2, pActiveX2, pActiveO, Vector3.eq_components]
  refine ⟨rfl, rfl, hx, by norm_num [eps6], ?_⟩
  have hguard : ¬ (pFixedX2.position - pActiveO.position).Length < eps6 := by
    rw [hx, Vector3.length_x_axis 2 (by norm_num)]
    norm_num [eps6]
  rw [Spring.applyForce_eval _ _ _ hguard]
  dsimp only
  rw [Particle.addForce_fixed _ _ rfl]
  intro h
  have hcx := congrArg Vector3.x h
  simp [pFixedX2, pActiveX2, pActiveO, cexSpring] at hcx

/-- C4 amended: the accumulator change ApplyForce makes to particle_a is
the exact negation of the change to particle_b, for any non-coincident
configuration in which the two particles have the same type (both movable
or both fixed).  The proviso is forced: with exactly one Fixed endpoint the
fixed side's accumulator does not change while the movable side's does. -/
theorem Spring.newton_symmetry (s : Spring) (pa pb : Particle)
    (hsep : eps6 ≤ (pa.position - pb.position).Length)
    (htype : pa.ptype = pb.ptype) :
    (s.ApplyForce pa pb).2.1.force_accumulator - pa.force_accumulator =
      -((s.ApplyForce pa pb).2.2.force_accumulator - pb.force_accumulator) := by
  rw [Spring.applyForce_eval s pa pb (not_lt.2 hsep)]
  dsimp only
  cases hpa : pa.ptype
  · have hpb : pb.ptype = ParticleType.kActive := htype.symm.trans hpa
    rw [Particle.addForce_active _ _ hpa, Particle.addForce_active _ _ hpb]
    dsimp only
    rw [Vector3.eq_components]
    refine ⟨?_, ?_, ?_⟩ <;> simp
  · have hpb : pb.ptype = ParticleType.kFixed := htype.symm.trans hpa
    rw [Particle.addForce_fixed _ _ hpa, Particle.addForce_fixed _ _ hpb]
    rw [Vector3.eq_components]
    refine ⟨?_, ?_, ?_⟩ <;> simp

/-- C4 witness: two active particles at separation 2. -/
theorem Spring.newton_symmetry_witness :
    (wSpring.ApplyForce pActiveX2 pActiveO).2.1.force_accumulator -
        pActiveX2.force_accumulator =
      -((wSpring.ApplyForce pActiveX2 pActiveO).2.2.force_accumulator -
        pActiveO.force_accumulator) :=
  Spring.newton_symmetry wSpring pActiveX2 pActiveO
    (by
      have hx : pActiveX2.position - pActiveO.position = (⟨2, 0, 0⟩ : Vector3) := by
        simp [pActiveX2, pActiveO, Vector3.eq_components]
      rw [hx, Vector3.length_x_axis 2 (by norm_num)]
      norm_num [eps6])
    rfl

/-- C4 counterexample: an active particle_a at (2,0,0) and a Fixed
particle_b at the origin: particle_a's accumulator changes while
particle_b's does not, so the two changes are not exact negations. -/
theorem Spring.newton_fixed_counterexample :
    eps6 ≤ (pActiveX2.position - pFixedO.position).Length ∧
    (cexSpring.ApplyForce pActiveX2 pFixedO).2.1.force_accumulator -
        pActiveX2.force_accumulator ≠
      -((cexSpring.ApplyForce pActiveX2 pFixedO).2.2.force_accumulator -
        pFixedO.force_accumulator) := by
  have hx : pActiveX2.position - pFixedO.position = (⟨2, 0, 0⟩ : Vector3) := by
    simp [pActiveX2, pActiveO, pFixedO, Vector3.eq_components]
  have hlen : (pActiveX2.position - pFixedO.position).Length = 2 := by
    rw [hx]; exact Vector3.length_x_axis 2 (by norm_num)
  refine ⟨by rw [hlen]; norm_num [eps6], ?_⟩
  rw [Spring.applyForce_eval _ _ _ (by rw [hlen]; norm_num [eps6])]
  dsimp only
  rw [Particle.addForce_active _ _ rfl, Particle.addForce_fixed _ _ rfl]
  intro h
  have hcx := congrArg Vector3.x h
  rw [hlen, hx] at hcx
  simp [pActiveX2, pActiveO, pFixedO, cexSpring, Dot] at hcx

/-- SatisfyConstraint leaves a fixed first endpoint untouched. -/
lemma Constraint.satisfy_fixed_left (c : Constraint) (pa pb : Particle)
    (h : pa.ptype = ParticleType.kFixed) :
    (c.SatisfyConstraint pa pb).1 = pa := by
  by_cases hg : (pb.position - pa.position).Length < eps6
  · simp [Constraint.SatisfyConstraint, if_pos hg]
  · simp only [Constraint.SatisfyConstraint, if_neg hg]
    cases hpb : pb.ptype <;> simp [h, hpb]

/-- SatisfyConstraint leaves a fixed second endpoint untouched. -/
lemma Constraint.satisfy_fixed_right (c : Constraint) (pa pb : Particle)
    (h : pb.ptype = ParticleType.kFixed) :
    (c.SatisfyConstraint pa pb).2 = pb := by
  by_cases hg : (pb.position - pa.position).Length < eps6
  · simp [Constraint.SatisfyConstraint, if_pos hg]
  · simp only [Constraint.SatisfyConstraint, if_neg hg]
    cases hpa : pa.ptype <;> simp [h, hpa]

/-- The particle-particle resolver leaves a fixed first particle
untouched. -/
lemma ResolveParticleParticle.fst_fixed (diss : ℝ) (p1 p2 : Particle)
    (h : p1.ptype = ParticleType.kFixed) :
    (ResolveParticleParticle diss p1 p2).1 = p1 := by
  cases hp2 : p2.ptype <;>
    simp [ResolveParticleParticle, h, hp2, ite_pair_fst, ite_pair_snd]

/-- The particle-particle resolver leaves a fixed second particle
untouched. -/
lemma ResolveParticleParticle.snd_fixed (diss : ℝ) (p1 p2 : Particle)
    (h : p2.ptype = ParticleType.kFixed) :
    (ResolveParticleParticle diss p1 p2).2 = p2 := by
  cases hp1 : p1.ptype <;>
    simp [ResolveParticleParticle, h, hp1, ite_pair_fst, ite_pair_snd]

/-- One particle-particle collision iteration preserves every list entry
holding a fixed particle. -/
lemma collidePairAt_preserves_fixed (diss : ℝ) (ps : List Particle)
    (i j k : Nat) (p : Particle) (hk : ps[k]? = some p)
    (hfix : p.ptype = ParticleType.kFixed) :
    (collidePairAt diss ps i j)[k]? = some p := by
  cases hi : ps[i]? with
  | none => simpa [collidePairAt, hi] using hk
  | some p1 =>
    cases hj : ps[j]? with
    | none => simpa [collidePairAt, hi, hj] using hk
    | some p2 =>
      simp only [collidePairAt, hi, hj]
      rw [List.getElem?_set]
      by_cases hjk : j = k
      · subst hjk
        have hjlen : j < ps.length := (List.getElem?_eq_some_iff.mp hj).1
        rw [if_pos rfl, if_pos (by simpa using hjlen)]
        have hp2 : p2 = p := by rw [hj] at hk; exact Option.some.inj hk
        subst hp2
        rw [ResolveParticleParticle.snd_fixed diss p1 p2 hfix]
      · rw [if_neg hjk, List.getElem?_set]
        by_cases hik : i = k
        · subst hik
          have hilen : i < ps.length := (List.getElem?_eq_some_iff.mp hi).1
          rw [if_pos rfl, if_pos hilen]
          have hp1 : p1 = p := by rw [hi] at hk; exact Option.some.inj hk
          subst hp1
          rw [ResolveParticleParticle.fst_fixed diss p1 p2 hfix]
        · rw [if_neg hik]
          exact hk

/-- The particle-particle double loop preserves every entry holding a fixed
particle. -/
lemma handleParticleCollisions_preserves_fixed (diss : ℝ) (ps : List Particle)
    (k : Nat) (p : Particle) (hk : ps[k]? = some p)
    (hfix : p.ptype = ParticleType.kFixed) :
    (HandleParticleCollisions diss ps)[k]? = some p := by
  unfold HandleParticleCollisions
  refine foldl_preserves (fun l => l[k]? = some p) _ ?_ _ _ hk
  intro a i ha
  refine foldl_preserves (fun l => l[k]? = some p) _ ?_ _ _ ha
  intro a2 j ha2
  exact collidePairAt_preserves_fixed diss a2 i j k p ha2 hfix

/-- The particle-plane resolver leaves a fixed particle untouched. -/
lemma ResolveParticlePlane.fixed (diss : ℝ) (plane : Plane) (p : Particle)
    (h : p.ptype = ParticleType.kFixed) :
    ResolveParticlePlane diss plane p = p := by
  simp [ResolveParticlePlane, h]

/-- Folding a fixed particle through all planes leaves it untouched. -/
lemma planeFold_fixed (diss : ℝ) (planes : List Plane) (p : Particle)
    (h : p.ptype = ParticleType.kFixed) :
    planes.foldl (fun q plane => ResolveParticlePlane diss plane q) p = p := by
  induction planes with
  | nil => rfl
  | cons plane t ih =>
    rw [List.foldl_cons, ResolveParticlePlane.fixed diss plane p h]
    exact ih

/-- The particle-plane pass preserves every entry holding a fixed
particle. -/
lemma handlePlaneCollisions_preserves_fixed (diss : ℝ) (planes : List Plane)
    (ps : List Particle) (k : Nat) (p : Particle) (hk : ps[k]? = some p)
    (hfix : p.ptype = ParticleType.kFixed) :
    (HandlePlaneCollisions diss planes ps)[k]? = some p := by
  unfold HandlePlaneCollisions
  rw [List.getElem?_map, hk]
  simp [planeFold_fixed diss planes p hfix]

/-- C2: a Fixed particle is completely untouched by AddForce, by
SatisfyConstraint (in either endpoint role), by collision resolution
(Simulation::HandleCollisions, both particle-particle and particle-plane),
and by the integration phase of a simulation step; in particular its
position and velocity never change. -/
theorem Particle.fixed_invariance (p : Particle)
    (hfix : p.ptype = ParticleType.kFixed) :
    (∀ f : Vector3, p.AddForce f = p) ∧
    (∀ (c : Constraint) (q : Particle),
      (c.SatisfyConstraint p q).1 = p ∧ (c.SatisfyConstraint q p).2 = p) ∧
    (∀ (sim : Simulation) (k : Nat), sim.particles[k]? = some p →
      (sim.HandleCollisions).particles[k]? = some p) ∧
    (∀ (sim : Simulation) (dt : ℝ) (k : Nat), sim.particles[k]? = some p →
      (sim.IntegrateParticles dt).particles[k]? = some p) := by
  refine ⟨?_, ?_, ?_, ?_⟩
  · intro f; exact Particle.addForce_fixed p f hfix
  · intro c q
    exact ⟨Constraint.satisfy_fixed_left c p q hfix,
           Constraint.satisfy_fixed_right c q p hfix⟩
  · intro sim k hk
    unfold Simulation.HandleCollisions
    dsimp only
    exact handlePlaneCollisions_preserves_fixed _ _ _ k p
      (handleParticleCollisions_preserves_fixed _ _ k p hk hfix) hfix
  · intro sim dt k hk
    unfold Simulation.IntegrateParticles
    dsimp only
    rw [List.getElem?_map, hk]
    simp [hfix]

/-- C2 witness: the concrete fixed particle at the origin is unchanged by
AddForce of a concrete force. -/
theorem Particle.fixed_invariance_witness :
    pFixedO.AddForce ⟨1, 2, 3⟩ = pFixedO :=
  (Particle.fixed_invariance pFixedO rfl).1 ⟨1, 2, 3⟩

/-- Evaluation of SatisfyConstraint for two movable endpoints in the
non-coincident case: each endpoint absorbs half the correction. -/
lemma Constraint.satisfy_eval_active (c : Constraint) (pa pb : Particle)
    (ha : pa.ptype = ParticleType.kActive) (hb : pb.ptype = ParticleType.kActive)
    (hg : ¬ (pb.position - pa.position).Length < eps6) :
    c.SatisfyConstraint pa pb =
      ({ pa with position := pa.position +
          ((pb.position - pa.position) *
            (((pb.position - pa.position).Length - c.length) /
              (pb.position - pa.position).Length)) * (0.5 : ℝ) },
       { pb with position := pb.position -
          ((pb.position - pa.position) *
            (((pb.position - pa.position).Length - c.length) /
              (pb.position - pa.position).Length)) * (0.5 : ℝ) }) := by
  simp only [Constraint.SatisfyConstraint, if_neg hg, ha, hb]
  simp
  norm_num

/-- After one SatisfyConstraint on two movable endpoints, the separation
vector is the old one scaled by target/current. -/
lemma Constraint.satisfy_delta (c : Constraint) (pa pb : Particle)
    (ha : pa.ptype = ParticleType.kActive) (hb : pb.ptype = ParticleType.kActive)
    (hsep : eps6 ≤ (pb.position - pa.position).Length) :
    (c.SatisfyConstraint pa pb).2.position - (c.SatisfyConstraint pa pb).1.position =
      (pb.position - pa.position) *
        (c.length / (pb.position - pa.position).Length) := by
  have hL : (0:ℝ) < (pb.position - pa.position).Length :=
    lt_of_lt_of_le (by norm_num [eps6]) hsep
  rw [Constraint.satisfy_eval_active c pa pb ha hb (not_lt.2 hsep)]
  dsimp only
  rw [Vector3.eq_components]
  refine ⟨?_, ?_, ?_⟩ <;> (simp; field_simp; ring)

/-- After one SatisfyConstraint on two movable endpoints, the separation
equals the target length exactly. -/
lemma Constraint.satisfy_length (c : Constraint) (pa pb : Particle)
    (ha : pa.ptype = ParticleType.kActive) (hb : pb.ptype = ParticleType.kActive)
    (hlen0 : 0 ≤ c.length)
    (hsep : eps6 ≤ (pb.position - pa.position).Length) :
    ((c.SatisfyConstraint pa pb).2.position -
      (c.SatisfyConstraint pa pb).1.position).Length = c.length := by
  have hL : (0:ℝ) < (pb.position - pa.position).Length :=
    lt_of_lt_of_le (by norm_num [eps6]) hsep
  rw [Constraint.satisfy_delta c pa pb ha hb hsep, Vector3.length_smul,
    abs_of_nonneg (div_nonneg hlen0 hL.le)]
  field_simp

/-- SatisfyConstraint on two movable endpoints already at the target length
changes nothing. -/
lemma Constraint.satisfy_at_target (c : Constraint) (pa pb : Particle)
    (ha : pa.ptype = ParticleType.kActive) (hb : pb.ptype = ParticleType.kActive)
    (hlen : (pb.position - pa.position).Length = c.length) :
    c.SatisfyConstraint pa pb = (pa, pb) := by
  by_cases hg : (pb.position - pa.position).Length < eps6
  · simp [Constraint.SatisfyConstraint, if_pos hg]
  · rw [Constraint.satisfy_eval_active c pa pb ha hb hg]
    rw [Prod.mk.injEq, Particle.eq_fields, Particle.eq_fields]
    norm_num
    constructor <;> (rw [Vector3.eq_components]; refine ⟨?_, ?_, ?_⟩ <;> simp [hlen])

/-- Repeated SatisfyConstraint calls on a pair of particles, with no other
operation in between. -/
def Constraint.SatisfyIter (c : Constraint) : Nat → Particle × Particle → Particle × Particle
  | 0, pq => pq
  | n + 1, pq => c.SatisfyIter n (c.SatisfyConstraint pq.1 pq.2)

/-- C9: for a constraint of nonnegative target length joining two movable
particles at non-coincident positions (separation at least the 1e-6
tolerance), one SatisfyConstraint call does not increase the distance of
the separation from the target; in fact it reaches the target exactly, and
every further call keeps it there, so repeated calls converge to the
target. -/
theorem Constraint.relaxation_converges (c : Constraint) (pa pb : Particle)
    (ha : pa.ptype = ParticleType.kActive) (hb : pb.ptype = ParticleType.kActive)
    (hlen0 : 0 ≤ c.length)
    (hsep : eps6 ≤ (pb.position - pa.position).Length) :
    (|((c.SatisfyConstraint pa pb).2.position -
        (c.SatisfyConstraint pa pb).1.position).Length - c.length| ≤
      |(pb.position - pa.position).Length - c.length|) ∧
    (((c.SatisfyConstraint pa pb).2.position -
        (c.SatisfyConstraint pa pb).1.position).Length = c.length) ∧
    (∀ n, 1 ≤ n →
      ((c.SatisfyIter n (pa, pb)).2.position -
        (c.SatisfyIter n (pa, pb)).1.position).Length = c.length) := by
  have hone := Constraint.satisfy_length c pa pb ha hb hlen0 hsep
  have heval := Constraint.satisfy_eval_active c pa pb ha hb (not_lt.2 hsep)
  have hqa : (c.SatisfyConstraint pa pb).1.ptype = ParticleType.kActive := by
    rw [heval]; exact ha
  have hqb : (c.SatisfyConstraint pa pb).2.ptype = ParticleType.kActive := by
    rw [heval]; exact hb
  have hfix : ∀ m, c.SatisfyIter m (c.SatisfyConstraint pa pb) =
      c.SatisfyConstraint pa pb := by
    intro m
    induction m with
    | zero => rfl
    | succ k ih =>
      show c.SatisfyIter k
          (c.SatisfyConstraint (c.SatisfyConstraint pa pb).1
            (c.SatisfyConstraint pa pb).2) = _
      rw [Constraint.satisfy_at_target c _ _ hqa hqb hone]
      exact ih
  refine ⟨?_, hone, ?_⟩
  · rw [hone]
    simp
  · intro n hn
    obtain ⟨m, rfl⟩ : ∃ m, n = m + 1 := ⟨n - 1, (Nat.succ_pred_eq_of_pos hn).symm⟩
    show ((c.SatisfyIter m (c.SatisfyConstraint pa pb)).2.position -
        (c.SatisfyIter m (c.SatisfyConstraint pa pb)).1.position).Length = c.length
    rw [hfix m]
    exact hone

/-- The constraint used by the relaxation witness: target length 1. -/
def wConstraint : Constraint := { length := 1, a := 0, b := 1 }

/-- C9 witness: two active particles at separation 2 under a constraint of
target length 1. -/
theorem Constraint.relaxation_converges_witness :
    (|((wConstraint.SatisfyConstraint pActiveO pActiveX2).2.position -
        (wConstraint.SatisfyConstraint pActiveO pActiveX2).1.position).Length -
        wConstraint.length| ≤
      |(pActiveX2.position - pActiveO.position).Length - wConstraint.length|) ∧
    (((wConstraint.SatisfyConstraint pActiveO pActiveX2).2.position -
        (wConstraint.SatisfyConstraint pActiveO pActiveX2).1.position).Length =
      wConstraint.length) ∧
    (∀ n, 1 ≤ n →
      ((wConstraint.SatisfyIter n (pActiveO, pActiveX2)).2.position -
        (wConstraint.SatisfyIter n (pActiveO, pActiveX2)).1.position).Length =
      wConstraint.length) :=
  Constraint.relaxation_converges wConstraint pActiveO pActiveX2 rfl rfl
    (by norm_num [wConstraint])
    (by
      have hx : pActiveX2.position - pActiveO.position = (⟨2, 0, 0⟩ : Vector3) := by
        simp [pActiveX2, pActiveO, Vector3.eq_components]
      rw [hx, Vector3.length_x_axis 2 (by norm_num)]
      norm_num [eps6])

/-- C5: for a colliding pair in Simulation::HandleCollisions (the
particle-particle resolver invoked with the simulation's dissipative
coefficient as restitution), velocities change only when the pair is
approaching (dot(relative velocity, normal) < 0); in that case the impulse
has magnitude -(1+restitution)*(velocity along normal) along the contact
normal and is split by the fixedness weighting: half each when both are
movable, all to the movable one when one is fixed, none when both are
fixed. -/
theorem Simulation.collision_impulse_spec (sim : Simulation) (p1 p2 : Particle)
    (n : Vector3) (vn j : ℝ)
    (hn : n = (p1.position - p2.position) /
      Real.sqrt ((p1.position - p2.position).SqrLength))
    (hvn : vn = Dot (p1.velocity - p2.velocity) n)
    (hj : j = -(1 + sim.dissipative_coefficient) * vn)
    (hcol : (p1.position - p2.position).SqrLength <
        (p1.radius + p2.radius) * (p1.radius + p2.radius) ∧
      (p1.position - p2.position).SqrLength > eps9) :
    (0 ≤ vn →
      (ResolveParticleParticle sim.dissipative_coefficient p1 p2).1.velocity =
        p1.velocity ∧
      (ResolveParticleParticle sim.dissipative_coefficient p1 p2).2.velocity =
        p2.velocity) ∧
    (vn < 0 →
      (p1.ptype ≠ ParticleType.kFixed ∧ p2.ptype ≠ ParticleType.kFixed →
        (ResolveParticleParticle sim.dissipative_coefficient p1 p2).1.velocity =
          p1.velocity + n * (j * (0.5 : ℝ)) ∧
        (ResolveParticleParticle sim.dissipative_coefficient p1 p2).2.velocity =
          p2.velocity - n * (j * (0.5 : ℝ))) ∧
      (p1.ptype ≠ ParticleType.kFixed ∧ p2.ptype = ParticleType.kFixed →
        (ResolveParticleParticle sim.dissipative_coefficient p1 p2).1.velocity =
          p1.velocity + n * j ∧
        (ResolveParticleParticle sim.dissipative_coefficient p1 p2).2.velocity =
          p2.velocity) ∧
      (p1.ptype = ParticleType.kFixed ∧ p2.ptype ≠ ParticleType.kFixed →
        (ResolveParticleParticle sim.dissipative_coefficient p1 p2).1.velocity =
          p1.velocity ∧
        (ResolveParticleParticle sim.dissipative_coefficient p1 p2).2.velocity =
          p2.velocity - n * j) ∧
      (p1.ptype = ParticleType.kFixed ∧ p2.ptype = ParticleType.kFixed →
        (ResolveParticleParticle sim.dissipative_coefficient p1 p2).1.velocity =
          p1.velocity ∧
        (ResolveParticleParticle sim.dissipative_coefficient p1 p2).2.velocity =
          p2.velocity)) := by
  subst hn; subst hvn; subst hj
  simp only [ResolveParticleParticle, if_pos hcol]
  cases hp1 : p1.ptype <;> cases hp2 : p2.ptype <;>
    (simp only [hp1, hp2, reduceCtorEq, if_false, ite_false, if_true, ite_true]
     norm_num [ite_pair_fst, ite_pair_snd]) <;>
    constructor <;>
    first
    | trivial
    | exact ⟨trivial, trivial⟩
    | (intro h
       intros
       try simp only [if_neg (not_lt.2 h)]
       try simp only [if_pos h]
       all_goals
         first
         | exact ⟨rfl, rfl⟩
         | rfl
         | exact ⟨trivial, trivial⟩
         | trivial)

/-- A concrete active particle of radius 0.6 at (1,0,0) moving along -x. -/
def pColl1 : Particle :=
  { mass := 1, radius := 3 / 5, position := ⟨1, 0, 0⟩, velocity := ⟨-1, 0, 0⟩,
    previous_position := ⟨1, 0, 0⟩, force_accumulator := ⟨0, 0, 0⟩,
    color := ⟨1, 1, 1⟩, ptype := ParticleType.kActive }

/-- A concrete active particle of radius 0.6 at rest at the origin. -/
def pColl2 : Particle :=
  { mass := 1, radius := 3 / 5, position := ⟨0, 0, 0⟩, velocity := ⟨0, 0, 0⟩,
    previous_position := ⟨0, 0, 0⟩, force_accumulator := ⟨0, 0, 0⟩,
    color := ⟨1, 1, 1⟩, ptype := ParticleType.kActive }

/-- The contact normal of the concrete colliding pair. -/
def nColl : Vector3 :=
  (pColl1.position - pColl2.position) /
    Real.sqrt ((pColl1.position - pColl2.position).SqrLength)

/-- The velocity along the normal of the concrete colliding pair. -/
def vnColl : ℝ := Dot (pColl1.velocity - pColl2.velocity) nColl

/-- The impulse magnitude of the concrete colliding pair. -/
def jColl : ℝ := -(1 + simEmpty.dissipative_coefficient) * vnColl

lemma pColl_sqrLength : (pColl1.position - pColl2.position).SqrLength = 1 := by
  norm_num [pColl1, pColl2, Vector3.SqrLength]

lemma vnColl_neg : vnColl < 0 := by
  unfold vnColl nColl
  rw [pColl_sqrLength, Real.sqrt_one]
  norm_num [Dot, pColl1, pColl2]

/-- C5 witness: two concrete approaching active particles in overlap; the
impulse splits half and half. -/
theorem Simulation.collision_impulse_spec_witness :
    (ResolveParticleParticle simEmpty.dissipative_coefficient pColl1 pColl2).1.velocity =
      pColl1.velocity + nColl * (jColl * (0.5 : ℝ)) ∧
    (ResolveParticleParticle simEmpty.dissipative_coefficient pColl1 pColl2).2.velocity =
      pColl2.velocity - nColl * (jColl * (0.5 : ℝ)) :=
  ((Simulation.collision_impulse_spec simEmpty pColl1 pColl2 nColl vnColl jColl
      rfl rfl rfl
      ⟨by rw [pColl_sqrLength]; norm_num [pColl1, pColl2],
       by rw [pColl_sqrLength]; norm_num [eps9]⟩).2
    vnColl_neg).1 ⟨by simp [pColl1], by simp [pColl2]⟩

end PhysicsSimulation

end
